import Mathlib

/-!
Verification development for a genotype factorized variational autoencoder.

The model factorizes a samples-times-variants genotype matrix through two sets
of latent variables (per-sample U, per-variant V), each given a diagonal
Gaussian approximate posterior by an encoder network, decoded through a
dot-product interaction into a factorized Binomial likelihood, and trained by
maximizing an evidence lower bound (ELBO) over a fixed budget of epochs.

The definitions below are a shallow embedding of that program: tensors become
functions out of Fin types, the dense layers become explicit affine maps
followed by an activation, random sampling becomes an explicit function of the
injected standard-normal noise, and the data iterator with its out-of-range
signal becomes index-based access into a finite list of batches.
-/

namespace GenoFVAE

/-! ### Scalar nonlinearities -/

/-- Softplus activation, the map x to log(1 + exp x). -/
noncomputable def softplus (x : ℝ) : ℝ := Real.log (1 + Real.exp x)

/-- Logistic sigmoid, the map x to 1 / (1 + exp (-x)); the per-trial success
probability of a Binomial distribution parameterized by a logit. -/
noncomputable def sigmoid (x : ℝ) : ℝ := 1 / (1 + Real.exp (-x))

/-! ### Distribution primitives -/

/-- A multivariate Gaussian with diagonal covariance over D coordinates,
given by a location vector and a scale vector. -/
structure DiagonalGaussian (D : ℕ) where
  loc : Fin D → ℝ
  scale : Fin D → ℝ

/-- Closed-form KL divergence between two diagonal Gaussians of the same
dimensionality, the standard per-row formula
0.5 * sum over d of ((s1/s2)^2 + ((m2-m1)/s2)^2 - 1 + 2*log(s2/s1)). -/
noncomputable def klDiag {D : ℕ} (p q : DiagonalGaussian D) : ℝ :=
  (1 / 2) * ∑ d, ((p.scale d / q.scale d) ^ 2
    + ((q.loc d - p.loc d) / q.scale d) ^ 2 - 1
    + 2 * Real.log (q.scale d / p.scale d))

/-- Reparameterized draw from a diagonal Gaussian: location plus scale times
injected standard-normal noise, coordinatewise. -/
noncomputable def DiagonalGaussian.sample {D : ℕ} (g : DiagonalGaussian D)
    (ε : Fin D → ℝ) : Fin D → ℝ :=
  fun d => g.loc d + g.scale d * ε d

/-- A product of K independent Binomial distributions, each parameterized by a
logit, all sharing one real-valued total count. -/
structure FactorizedBinomial (K : ℕ) where
  logits : Fin K → ℝ
  totalCount : ℝ

/-- Binomial log-probability of observing count k out of n trials under a
logit parameterization: the log binomial coefficient (through the Gamma
function, as the library computes it for real counts) plus
k * logit - n * softplus logit. -/
noncomputable def binomialLogProb (logit n k : ℝ) : ℝ :=
  (Real.log (Real.Gamma (n + 1)) - Real.log (Real.Gamma (k + 1))
    - Real.log (Real.Gamma (n - k + 1)))
    + k * logit - n * softplus logit

/-- Log-probability of a flattened observation under the factorized Binomial:
the sum of the per-entry Binomial log-probabilities (independence across all
entries). -/
noncomputable def FactorizedBinomial.logProb {K : ℕ} (d : FactorizedBinomial K)
    (x : Fin K → ℝ) : ℝ :=
  ∑ k, binomialLogProb (d.logits k) d.totalCount (x k)

/-- Mean of one Binomial factor: total count times the per-trial success
probability sigmoid of the logit; the expected genotype dosage the decoder
assigns to that entry. -/
noncomputable def FactorizedBinomial.mean {K : ℕ} (d : FactorizedBinomial K)
    (k : Fin K) : ℝ :=
  d.totalCount * sigmoid (d.logits k)

/-! ### Dense layers and the encoder -/

/-- Weights and bias of one dense (fully connected) layer. -/
structure DenseParams (nin nout : ℕ) where
  weight : Fin nout → Fin nin → ℝ
  bias : Fin nout → ℝ

/-- One dense layer applied to one row: activation of the affine map. -/
noncomputable def dense {nin nout : ℕ} (p : DenseParams nin nout)
    (act : ℝ → ℝ) (x : Fin nin → ℝ) : Fin nout → ℝ :=
  fun j => act ((∑ i, p.weight j i * x i) + p.bias j)

/-- All learnable parameters of the encoder: the sample path is a stack of
dense sigmoid layers of widths 64, 32, 128 over the data rows followed by a
linear layer of width zDim * 2; the site path is a stack of widths 64, 32, 16
over the transposed data followed by a linear layer of width zDim * 2. -/
structure EncoderParams (numFeatures batchSize zDim : ℕ) where
  u1 : DenseParams numFeatures 64
  u2 : DenseParams 64 32
  u3 : DenseParams 32 128
  uOut : DenseParams 128 (zDim * 2)
  v1 : DenseParams batchSize 64
  v2 : DenseParams 64 32
  v3 : DenseParams 32 16
  vOut : DenseParams 16 (zDim * 2)

/-- Index of column d inside the first half (columns 0 to z) of a width z * 2
projection output. -/
def firstHalf {z : ℕ} (d : Fin z) : Fin (z * 2) :=
  ⟨d.1, by have := d.isLt; omega⟩

/-- Index of column d inside the second half (columns z to 2 * z) of a width
z * 2 projection output. -/
def secondHalf {z : ℕ} (d : Fin z) : Fin (z * 2) :=
  ⟨z + d.1, by have := d.isLt; omega⟩

/-- Raw width zDim * 2 output of the sample path for data row i: three dense
sigmoid layers of widths 64, 32, 128 followed by the linear output layer. -/
noncomputable def uNet {nf bs z : ℕ} (p : EncoderParams nf bs z)
    (data : Fin bs → Fin nf → ℝ) (i : Fin bs) : Fin (z * 2) → ℝ :=
  dense p.uOut id (dense p.u3 sigmoid (dense p.u2 sigmoid (dense p.u1 sigmoid (data i))))

/-- Posterior over the per-sample latent U for row i: location is the first
half of the raw output, scale is softplus of the second half plus 0.5. -/
noncomputable def uPosterior {nf bs z : ℕ} (p : EncoderParams nf bs z)
    (data : Fin bs → Fin nf → ℝ) (i : Fin bs) : DiagonalGaussian z :=
  { loc := fun d => uNet p data i (firstHalf d)
    scale := fun d => softplus (uNet p data i (secondHalf d) + 0.5) }

/-- Raw width zDim * 2 output of the site path for variant j: the transposed
data goes through three dense sigmoid layers of widths 64, 32, 16 followed by
the linear output layer. -/
noncomputable def vNet {nf bs z : ℕ} (p : EncoderParams nf bs z)
    (data : Fin bs → Fin nf → ℝ) (j : Fin nf) : Fin (z * 2) → ℝ :=
  dense p.vOut id (dense p.v3 sigmoid (dense p.v2 sigmoid (dense p.v1 sigmoid (fun i => data i j))))

/-- Posterior over the per-variant latent V for variant j: location is the
SECOND half of the raw output, scale is softplus of the FIRST half plus 0.5 —
the column assignment is inverted relative to the sample path. -/
noncomputable def vPosterior {nf bs z : ℕ} (p : EncoderParams nf bs z)
    (data : Fin bs → Fin nf → ℝ) (j : Fin nf) : DiagonalGaussian z :=
  { loc := fun d => vNet p data j (secondHalf d)
    scale := fun d => softplus (vNet p data j (firstHalf d) + 0.5) }

/-! ### Reshape and encoder construction -/

/-- The configuration errors the model construction can raise. -/
inductive ConfigError where
  | reshapeMismatch
deriving DecidableEq

/-- Reshape a flat buffer into a rows by cols matrix, row-major; fails unless
the element count matches rows * cols exactly. -/
def reshape2d (flat : List ℝ) (rows cols : ℕ) :
    Option (Fin rows → Fin cols → ℝ) :=
  if h : flat.length = rows * cols then
    some (fun i j => flat.get ⟨i.1 * cols + j.1, by
      rw [h]
      have hj := j.isLt
      have hi : i.1 + 1 ≤ rows := i.isLt
      calc i.1 * cols + j.1 < (i.1 + 1) * cols := by rw [Nat.succ_mul]; omega
        _ ≤ rows * cols := Nat.mul_le_mul_right cols hi⟩)
  else none

/-- Encoder construction: reshape the incoming batch to batchSize rows of
numFeatures columns (a configuration error when the sizes do not match, fatal
and raised before any posterior exists), then build the U and V posteriors. -/
noncomputable def make_encoder {nf bs z : ℕ} (p : EncoderParams nf bs z)
    (flat : List ℝ) :
    Except ConfigError ((Fin bs → DiagonalGaussian z) × (Fin nf → DiagonalGaussian z)) :=
  match reshape2d flat bs nf with
  | none => Except.error ConfigError.reshapeMismatch
  | some data => Except.ok (fun i => uPosterior p data i, fun j => vPosterior p data j)

/-! ### Decoder -/

/-- Row index of flat position k in the row-major flattening of an N by M
matrix. -/
def rowIdx {N M : ℕ} (k : Fin (N * M)) : Fin N :=
  ⟨k.1 / M, by
    have hk := k.isLt
    have hM : 0 < M := by
      rcases Nat.eq_zero_or_pos M with h | h
      · subst h; simp at hk
      · exact h
    exact (Nat.div_lt_iff_lt_mul hM).mpr hk⟩

/-- Column index of flat position k in the row-major flattening of an N by M
matrix. -/
def colIdx {N M : ℕ} (k : Fin (N * M)) : Fin M :=
  ⟨k.1 % M, by
    have hk := k.isLt
    have hM : 0 < M := by
      rcases Nat.eq_zero_or_pos M with h | h
      · subst h; simp at hk
      · exact h
    exact Nat.mod_lt _ hM⟩

/-- Row-major flattening of the N by M data matrix to a length N * M vector,
the shape the decoder likelihood is evaluated against. -/
def flattenData {N M : ℕ} (data : Fin N → Fin M → ℝ) : Fin (N * M) → ℝ :=
  fun k => data (rowIdx k) (colIdx k)

/-- Dot-product decoder: for every pair of a sample row i and a variant row j,
the dot product of U row i and V row j over the latent dimensions, flattened
row-major to length N * M, passed through softplus to give the logits of a
factorized Binomial with total count 2 (the diploid ploidy). -/
noncomputable def make_decoder {N M z : ℕ} (u : Fin N → Fin z → ℝ)
    (v : Fin M → Fin z → ℝ) : FactorizedBinomial (N * M) :=
  { logits := fun k => softplus (∑ d, u (rowIdx k) d * v (colIdx k) d)
    totalCount := 2 }

/-! ### Prior -/

/-- The standard diagonal Gaussian: location 0, scale 1 in every coordinate. -/
def standardGaussian (D : ℕ) : DiagonalGaussian D :=
  { loc := fun _ => 0, scale := fun _ => 1 }

/-- Prior construction: a pure function of the latent dimension returning two
independent standard diagonal Gaussians, one for U and one for V. -/
def make_prior (z : ℕ) : DiagonalGaussian z × DiagonalGaussian z :=
  (standardGaussian z, standardGaussian z)

/-! ### ELBO assembly -/

/-- Sampled per-sample latents: one reparameterized draw per data row, using
the injected noise matrix. -/
noncomputable def uSample {nf bs z : ℕ} (p : EncoderParams nf bs z)
    (data : Fin bs → Fin nf → ℝ) (εU : Fin bs → Fin z → ℝ) :
    Fin bs → Fin z → ℝ :=
  fun i => (uPosterior p data i).sample (εU i)

/-- Sampled per-variant latents: one reparameterized draw per variant row. -/
noncomputable def vSample {nf bs z : ℕ} (p : EncoderParams nf bs z)
    (data : Fin bs → Fin nf → ℝ) (εV : Fin nf → Fin z → ℝ) :
    Fin nf → Fin z → ℝ :=
  fun j => (vPosterior p data j).sample (εV j)

/-- KL term for U: the per-row KL of each sample posterior against the U
prior, summed over all sample rows. -/
noncomputable def uKL {nf bs z : ℕ} (p : EncoderParams nf bs z)
    (data : Fin bs → Fin nf → ℝ) : ℝ :=
  ∑ i, klDiag (uPosterior p data i) (make_prior z).1

/-- KL term for V: the per-row KL of each variant posterior against the V
prior, summed over all variant rows. -/
noncomputable def vKL {nf bs z : ℕ} (p : EncoderParams nf bs z)
    (data : Fin bs → Fin nf → ℝ) : ℝ :=
  ∑ j, klDiag (vPosterior p data j) (make_prior z).2

/-- Reconstruction likelihood: the decoder distribution built from the two
latent samples, evaluated on the flattened observed data and summed over all
N * M entries. -/
noncomputable def likelihood {nf bs z : ℕ} (p : EncoderParams nf bs z)
    (data : Fin bs → Fin nf → ℝ) (εU : Fin bs → Fin z → ℝ)
    (εV : Fin nf → Fin z → ℝ) : ℝ :=
  (make_decoder (uSample p data εU) (vSample p data εV)).logProb (flattenData data)

/-- The evidence lower bound: minus the U KL term, minus the V KL term, plus
the reconstruction likelihood. -/
noncomputable def elbo {nf bs z : ℕ} (p : EncoderParams nf bs z)
    (data : Fin bs → Fin nf → ℝ) (εU : Fin bs → Fin z → ℝ)
    (εV : Fin nf → Fin z → ℝ) : ℝ :=
  -uKL p data - vKL p data + likelihood p data εU εV

/-- The quantity handed to the optimizer to minimize: the negation of the
evidence lower bound. -/
noncomputable def trainingLoss {nf bs z : ℕ} (p : EncoderParams nf bs z)
    (data : Fin bs → Fin nf → ℝ) (εU : Fin bs → Fin z → ℝ)
    (εV : Fin nf → Fin z → ℝ) : ℝ :=
  -elbo p data εU εV

/-- The loss as laid out in the reference graph construction: the prior is
built twice, the first tuple unpacked into one reused variable whose value is
discarded before the prior actually used by the loss is built. -/
noncomputable def elboPipeline_reference {nf bs z : ℕ} (p : EncoderParams nf bs z)
    (data : Fin bs → Fin nf → ℝ) (εU : Fin bs → Fin z → ℝ)
    (εV : Fin nf → Fin z → ℝ) : ℝ :=
  let _discarded := make_prior z;
  let priors := make_prior z;
  -(∑ i, klDiag (uPosterior p data i) priors.1)
    - (∑ j, klDiag (vPosterior p data j) priors.2)
    + likelihood p data εU εV

/-- The same loss with the dead first prior construction removed: the prior is
computed exactly once. -/
noncomputable def elboPipeline_simplified {nf bs z : ℕ} (p : EncoderParams nf bs z)
    (data : Fin bs → Fin nf → ℝ) (εU : Fin bs → Fin z → ℝ)
    (εV : Fin nf → Fin z → ℝ) : ℝ :=
  let priors := make_prior z;
  -(∑ i, klDiag (uPosterior p data i) priors.1)
    - (∑ j, klDiag (vPosterior p data j) priors.2)
    + likelihood p data εU εV

/-! ### Training loop -/

/-- What the data source returns when asked for the batch at cursor position
i: the next batch, or the out-of-range exhaustion signal once the finite
dataset is consumed. -/
inductive DataSignal (B : Type) where
  | batch (b : B)
  | outOfRange
deriving DecidableEq

/-- Pull from the data source at cursor position i. -/
def getNext {B : Type} (batches : List B) (i : ℕ) : DataSignal B :=
  if h : i < batches.length then DataSignal.batch (batches.get ⟨i, h⟩)
  else DataSignal.outOfRange

/-- Inner batch loop of one epoch, from cursor position i: pull the next
batch; on the exhaustion signal, stop and return the current parameters
normally; otherwise perform one optimization step and continue. -/
def innerLoop {Θ B : Type} (step : Θ → B → Θ) (batches : List B)
    (i : ℕ) (θ : Θ) : Θ :=
  if h : i < batches.length then
    innerLoop step batches (i + 1) (step θ (batches.get ⟨i, h⟩))
  else θ
termination_by batches.length - i

/-- Outer epoch loop: for each of the configured number of epochs, restart the
data source cursor at position 0 and run the inner loop over the whole
dataset. No early-stopping condition exists: the budget of epochs is the only
termination criterion. -/
def trainLoop {Θ B : Type} (step : Θ → B → Θ) (batches : List B) :
    ℕ → Θ → Θ
  | 0, θ => θ
  | e + 1, θ => trainLoop step batches e (innerLoop step batches 0 θ)

/-- Run of the whole program: when model construction failed with a
configuration error, that error is the outcome and no training step ever
runs; otherwise the training loop runs on the constructed model. -/
def programRun {Θ B : Type} (constructed : Except ConfigError Θ)
    (step : Θ → B → Θ) (batches : List B) (epochs : ℕ) :
    Except ConfigError Θ :=
  match constructed with
  | Except.error e => Except.error e
  | Except.ok θ => Except.ok (trainLoop step batches epochs θ)

/-! ### Concrete instances used by the witnesses -/

/-- A one-dimensional standard Gaussian used as a concrete witness input. -/
def unitGaussian1 : DiagonalGaussian 1 :=
  { loc := fun _ => 0, scale := fun _ => 1 }

/-- A dense layer with all weights and biases zero. -/
def zeroDense (nin nout : ℕ) : DenseParams nin nout :=
  { weight := fun _ _ => 0, bias := fun _ => 0 }

/-- Encoder parameters with every layer all-zero, a concrete witness input. -/
def zeroEncoder (nf bs z : ℕ) : EncoderParams nf bs z :=
  { u1 := zeroDense nf 64
    u2 := zeroDense 64 32
    u3 := zeroDense 32 128
    uOut := zeroDense 128 (z * 2)
    v1 := zeroDense bs 64
    v2 := zeroDense 64 32
    v3 := zeroDense 32 16
    vOut := zeroDense 16 (z * 2) }

/-! ### Helper lemmas -/

/-- Softplus is strictly positive on all of the reals. -/
theorem softplus_pos (x : ℝ) : 0 < softplus x := by
  unfold softplus
  have h := Real.exp_pos x
  exact Real.log_pos (by linarith)

/-- The sigmoid of a nonnegative logit is at least one half. -/
theorem sigmoid_ge_half {x : ℝ} (hx : 0 ≤ x) : 1 / 2 ≤ sigmoid x := by
  unfold sigmoid
  have h1 : Real.exp (-x) ≤ 1 := by
    have h := Real.exp_le_exp.mpr (neg_nonpos.mpr hx)
    rwa [Real.exp_zero] at h
  have h2 : (0 : ℝ) < 1 + Real.exp (-x) := by positivity
  rw [div_le_div_iff₀ (by norm_num) h2]
  linarith

/-- Once the cursor is at or past the end of the dataset, the inner loop
returns the parameters unchanged. -/
theorem innerLoop_stop {Θ B : Type} (step : Θ → B → Θ) (batches : List B)
    (i : ℕ) (θ : Θ) (h : batches.length ≤ i) :
    innerLoop step batches i θ = θ := by
  rw [innerLoop]
  exact dif_neg (by omega)

/-- The inner loop from cursor position i folds the step over the remaining
suffix of the dataset. -/
theorem innerLoop_eq_foldl {Θ B : Type} (step : Θ → B → Θ) (batches : List B)
    (i : ℕ) (θ : Θ) :
    innerLoop step batches i θ = (batches.drop i).foldl step θ := by
  by_cases h : i < batches.length
  · rw [innerLoop, dif_pos h,
      innerLoop_eq_foldl step batches (i + 1) (step θ (batches.get ⟨i, h⟩)),
      List.drop_eq_getElem_cons h, List.foldl_cons]
    rfl
  · rw [innerLoop, dif_neg h, List.drop_eq_nil_of_le (by omega), List.foldl_nil]
termination_by batches.length - i

/-! ### Claim theorems -/

/-- C1: the training objective equals minus the sum over all sample rows of
the KL of the U posterior row against the U prior, minus the sum over all
variant rows of the KL of the V posterior row against the V prior, plus the
reconstruction log-likelihood of the observed genotype matrix summed over all
entries of the decoder distribution; and the quantity handed to the optimizer
to minimize is exactly the negation of the elbo. -/
theorem elbo_objective_and_loss {nf bs z : ℕ} (p : EncoderParams nf bs z)
    (data : Fin bs → Fin nf → ℝ) (εU : Fin bs → Fin z → ℝ)
    (εV : Fin nf → Fin z → ℝ) :
    elbo p data εU εV
      = -(∑ i, klDiag (uPosterior p data i) (make_prior z).1)
        - (∑ j, klDiag (vPosterior p data j) (make_prior z).2)
        + (∑ k, binomialLogProb
            ((make_decoder (uSample p data εU) (vSample p data εV)).logits k)
            (make_decoder (uSample p data εU) (vSample p data εV)).totalCount
            (flattenData data k)) ∧
    trainingLoss p data εU εV = -elbo p data εU εV :=
  ⟨rfl, rfl⟩

/-- C2: the site path assigns its projection columns asymmetrically to the
sample path: V location reads the second half (columns z to 2z) of the width
z * 2 output and V scale is softplus of the first half (columns 0 to z) plus
0.5, whereas U location reads the first half and U scale is softplus of the
second half plus 0.5. -/
theorem encoder_column_split {nf bs z : ℕ} (p : EncoderParams nf bs z)
    (data : Fin bs → Fin nf → ℝ) (i : Fin bs) (j : Fin nf) (d : Fin z) :
    ((firstHalf d).1 = d.1 ∧ (secondHalf d).1 = z + d.1) ∧
    (vPosterior p data j).loc d = vNet p data j (secondHalf d) ∧
    (vPosterior p data j).scale d = softplus (vNet p data j (firstHalf d) + 0.5) ∧
    (uPosterior p data i).loc d = uNet p data i (firstHalf d) ∧
    (uPosterior p data i).scale d = softplus (uNet p data i (secondHalf d) + 0.5) :=
  ⟨⟨rfl, rfl⟩, rfl, rfl, rfl, rfl⟩

/-- C3: softplus of any real shifted by 0.5 is strictly positive, so every
scale entry of both the U and the V posterior is strictly positive on every
forward pass, for every parameter setting and every input batch, with no
runtime check involved. -/
theorem posterior_scales_pos {nf bs z : ℕ} (p : EncoderParams nf bs z)
    (data : Fin bs → Fin nf → ℝ) :
    (∀ x : ℝ, 0 < softplus (x + 0.5)) ∧
    (∀ (i : Fin bs) (d : Fin z), 0 < (uPosterior p data i).scale d) ∧
    (∀ (j : Fin nf) (d : Fin z), 0 < (vPosterior p data j).scale d) :=
  ⟨fun x => softplus_pos (x + 0.5),
   fun i d => softplus_pos (uNet p data i (secondHalf d) + 0.5),
   fun j d => softplus_pos (vNet p data j (firstHalf d) + 0.5)⟩

/-- C4: the decoder computes for every (sample, variant) pair the dot product
of U row i and V row j over the latent dimensions, flattens the N by M
interaction matrix row-major to length N * M, applies softplus to obtain the
logits, and builds a factorized Binomial with those logits and fixed total
count 2. -/
theorem decoder_structure {N M z : ℕ} (u : Fin N → Fin z → ℝ)
    (v : Fin M → Fin z → ℝ) (k : Fin (N * M)) :
    ((rowIdx k).1 = k.1 / M ∧ (colIdx k).1 = k.1 % M) ∧
    (make_decoder u v).logits k
      = softplus (∑ d, u (rowIdx k) d * v (colIdx k) d) ∧
    (make_decoder u v).totalCount = 2 :=
  ⟨⟨rfl, rfl⟩, rfl, rfl⟩

/-- C5: the training loop terminates after exactly the configured number of
full passes over the (finite) dataset: it equals the epochs-fold iterate of
one full fold over all batches, a fixed iteration budget with no
convergence-based early stopping. -/
theorem training_loop_fixed_budget {Θ B : Type} (step : Θ → B → Θ)
    (batches : List B) (epochs : ℕ) (θ : Θ) :
    trainLoop step batches epochs θ = (fun t => batches.foldl step t)^[epochs] θ := by
  induction epochs generalizing θ with
  | zero => rfl
  | succ e ih =>
    rw [trainLoop, ih, innerLoop_eq_foldl, List.drop_zero,
      Function.iterate_succ_apply]

/-- C6: when the data source signals exhaustion the inner loop stops and
returns the current parameters as a normal value, and every epoch of the
outer loop runs the inner loop with the cursor restarted at position 0 before
any batch is pulled. -/
theorem exhaustion_and_epoch_restart {Θ B : Type} (step : Θ → B → Θ)
    (batches : List B) (θ : Θ) :
    (∀ i, getNext batches i = DataSignal.outOfRange →
      innerLoop step batches i θ = θ) ∧
    (∀ e, trainLoop step batches (e + 1) θ
      = trainLoop step batches e (innerLoop step batches 0 θ)) := by
  constructor
  · intro i h
    apply innerLoop_stop
    unfold getNext at h
    by_contra hc
    rw [dif_pos (by omega)] at h
    exact DataSignal.noConfusion h
  · intro e
    rfl

/-- Witness for C6: on the concrete two-batch dataset, pulling at exhausted
cursor position 2 ends the inner loop returning the parameters unchanged, and
the one-epoch run restarts the cursor at 0. -/
theorem exhaustion_and_epoch_restart_witness :
    innerLoop (fun (n b : ℕ) => n + b) [5, 7] 2 0 = 0 ∧
    trainLoop (fun (n b : ℕ) => n + b) [5, 7] 1 0
      = trainLoop (fun (n b : ℕ) => n + b) [5, 7] 0
          (innerLoop (fun (n b : ℕ) => n + b) [5, 7] 0 0) :=
  ⟨(exhaustion_and_epoch_restart (fun n b => n + b) [5, 7] 0).1 2 (by decide),
   (exhaustion_and_epoch_restart (fun n b => n + b) [5, 7] 0).2 0⟩

/-- C7: the closed-form per-row KL divergence of a valid diagonal Gaussian
(strictly positive scale) to itself is zero. -/
theorem kl_self_eq_zero {D : ℕ} (g : DiagonalGaussian D)
    (h : ∀ d, 0 < g.scale d) : klDiag g g = 0 := by
  unfold klDiag
  have hterm : ∀ d : Fin D, (g.scale d / g.scale d) ^ 2
      + ((g.loc d - g.loc d) / g.scale d) ^ 2 - 1
      + 2 * Real.log (g.scale d / g.scale d) = 0 := by
    intro d
    rw [div_self (ne_of_gt (h d)), sub_self, zero_div, Real.log_one]
    norm_num
  rw [Finset.sum_congr rfl (fun d _ => hterm d)]
  simp

/-- Witness for C7: the KL of the concrete one-dimensional standard Gaussian
to itself is zero. -/
theorem kl_self_eq_zero_witness : klDiag unitGaussian1 unitGaussian1 = 0 :=
  kl_self_eq_zero unitGaussian1 (fun _ => one_pos)

/-- C8: the prior construction is a pure function of the latent dimension
returning two diagonal Gaussians with location 0 and scale 1, and the
reference pipeline that builds the prior twice (discarding the first result
through a reused variable) yields exactly the same elbo as the pipeline that
builds the prior once, which is the elbo of the model. -/
theorem prior_pure_and_dedup (z : ℕ) :
    ((make_prior z).1.loc = fun _ => 0) ∧
    ((make_prior z).1.scale = fun _ => 1) ∧
    ((make_prior z).2.loc = fun _ => 0) ∧
    ((make_prior z).2.scale = fun _ => 1) ∧
    (∀ (nf bs : ℕ) (p : EncoderParams nf bs z) (data : Fin bs → Fin nf → ℝ)
       (εU : Fin bs → Fin z → ℝ) (εV : Fin nf → Fin z → ℝ),
       elboPipeline_reference p data εU εV = elboPipeline_simplified p data εU εV) ∧
    (∀ (nf bs : ℕ) (p : EncoderParams nf bs z) (data : Fin bs → Fin nf → ℝ)
       (εU : Fin bs → Fin z → ℝ) (εV : Fin nf → Fin z → ℝ),
       elboPipeline_simplified p data εU εV = elbo p data εU εV) :=
  ⟨rfl, rfl, rfl, rfl, fun _ _ _ _ _ _ => rfl, fun _ _ _ _ _ _ => rfl⟩

/-- C9: when the element count of the incoming batch differs from batchSize
times numFeatures, the encoder reshape fails and model construction raises
the configuration error; the whole program run then yields that error for
every step function, dataset and epoch budget, so no training step ever
observes it and it is never recovered. -/
theorem reshape_mismatch_fatal {nf bs z : ℕ} (p : EncoderParams nf bs z)
    (flat : List ℝ) (h : flat.length ≠ bs * nf) :
    make_encoder p flat = Except.error ConfigError.reshapeMismatch ∧
    ∀ {Θ B : Type}
      (f : (Fin bs → DiagonalGaussian z) × (Fin nf → DiagonalGaussian z) → Θ)
      (step : Θ → B → Θ) (batches : List B) (epochs : ℕ),
      programRun (Except.map f (make_encoder p flat)) step batches epochs
        = Except.error ConfigError.reshapeMismatch := by
  have hm : make_encoder p flat = Except.error ConfigError.reshapeMismatch := by
    unfold make_encoder reshape2d
    rw [dif_neg h]
  exact ⟨hm, fun f step batches epochs => by rw [hm]; rfl⟩

/-- Witness for C9: a one-element batch against a declared 1 by 2 shape makes
the encoder construction fail with the reshape configuration error. -/
theorem reshape_mismatch_fatal_witness :
    make_encoder (zeroEncoder 2 1 1) [(0 : ℝ)]
      = Except.error ConfigError.reshapeMismatch :=
  (reshape_mismatch_fatal (zeroEncoder 2 1 1) [(0 : ℝ)] (by simp)).1

/-- C10: every decoder logit is nonnegative (it is a softplus output), so
every Binomial factor has per-trial success probability at least one half and
the expected genotype dosage of every entry is at least 1, half the fixed
ploidy of 2. -/
theorem decoder_dosage_lower_bound {N M z : ℕ} (u : Fin N → Fin z → ℝ)
    (v : Fin M → Fin z → ℝ) (k : Fin (N * M)) :
    0 ≤ (make_decoder u v).logits k ∧
    1 / 2 ≤ sigmoid ((make_decoder u v).logits k) ∧
    (make_decoder u v).totalCount / 2 ≤ (make_decoder u v).mean k := by
  have h0 : 0 ≤ (make_decoder u v).logits k :=
    le_of_lt (softplus_pos (∑ d, u (rowIdx k) d * v (colIdx k) d))
  have hs : 1 / 2 ≤ sigmoid ((make_decoder u v).logits k) := sigmoid_ge_half h0
  refine ⟨h0, hs, ?_⟩
  show (2 : ℝ) / 2 ≤ 2 * sigmoid ((make_decoder u v).logits k)
  linarith

end GenoFVAE
